import Mathlib

/-!
Verification of the DPCAR training harness against its specification.

Part I embeds `MMCE_weighted.forward` from `src/calibration/MMCE.py` as a
shallow embedding over lists of exact rationals.  Tensor values are lists of
rationals (floating-point values are rationals); the Laplacian kernel and the
final square root are real-valued.  `Option` models the two undefined-value
paths of the original code uniformly as `none`: a NaN produced by
`torch.mean` of an empty tensor (which then propagates through every
arithmetic operation, including `0 * NaN` and `torch.max(NaN, 0)`), and a
runtime error from `torch.topk` called with a size outside `[0, len]`.

Part II embeds the training orchestrator of `src/SSGRL_calibration.py`:
the method dispatch of `Train` (label-smoothing stage and loss stage), the
prototype-computation condition of `main`, and the per-epoch best-mAP /
checkpoint bookkeeping.  External collaborators (model, losses, smoothing
routines) are abstract function parameters gathered in `Collab`.
-/

/-! ### Part I: MMCE_weighted (src/calibration/MMCE.py) -/

/-- Laplacian kernel of `torch_kernel` applied to a single entry of a pair
matrix: `exp(-1.0 * |m[...,0] - m[...,1]| / 0.4)`. -/
noncomputable def torch_kernel_entry (p : ℚ × ℚ) : ℝ :=
  Real.exp (-1.0 * |(p.1 : ℝ) - (p.2 : ℝ)| / (0.4 : ℝ))

/-- Kernel matrix: `torch_kernel` applied entrywise to a pair matrix. -/
noncomputable def kernelMat (m : List (List (ℚ × ℚ))) : List (List ℝ) :=
  m.map (List.map torch_kernel_entry)

/-- The `get_pairs` method: from the two top-k confidence vectors it builds
the correct x correct, incorrect x incorrect and correct x incorrect pair
matrices (entry (i,j) of the cross matrix pairs `tensor1[i]` with
`tensor2[j]`). -/
def get_pairs (t1 t2 : List ℚ) :
    List (List (ℚ × ℚ)) × List (List (ℚ × ℚ)) × List (List (ℚ × ℚ)) :=
  (t1.map fun a => t1.map fun b => (a, b),
   t2.map fun a => t2.map fun b => (a, b),
   t1.map fun a => t2.map fun b => (a, b))

/-- Outer product `torch.mm(u.unsqueeze(1), v.unsqueeze(0))`. -/
def outerMat (u v : List ℚ) : List (List ℚ) :=
  u.map fun a => v.map fun b => a * b

/-- Entrywise product of a real matrix with a rational weight matrix. -/
def mulRQ (a : ℝ) (b : ℚ) : ℝ := a * (b : ℝ)

/-- Entrywise combination of two matrices (`tensor1 * tensor2`). -/
def matMap2 (f : α → β → γ) (m1 : List (List α)) (m2 : List (List β)) :
    List (List γ) :=
  List.zipWith (List.zipWith f) m1 m2

/-- Sum of all entries of a matrix. -/
def matSum (m : List (List ℝ)) : ℝ := (m.map List.sum).sum

/-- Number of entries of a matrix. -/
def matNumel (m : List (List α)) : ℕ := (m.map List.length).sum

/-- The `get_out_tensor` method: `torch.mean(tensor1 * tensor2)`.
`torch.mean` of an empty tensor is NaN, modelled as `none`. -/
noncomputable def get_out_tensor (t1 : List (List ℝ)) (t2 : List (List ℚ)) :
    Option ℝ :=
  if matNumel (matMap2 mulRQ t1 t2) = 0 then none
  else some (matSum (matMap2 mulRQ t1 t2) / (matNumel (matMap2 mulRQ t1 t2) : ℝ))

/-- Line 41: `predicted_probs = torch.where(input >= 0.5, input, 1-input)`. -/
def predicted_probs (input : List ℚ) : List ℚ :=
  input.map fun p => if 1/2 ≤ p then p else 1 - p

/-- Line 42: `predicted_labels = torch.where(input >= 0.5, 1, 0)`. -/
def predicted_labels (input : List ℚ) : List ℚ :=
  input.map fun p => if 1/2 ≤ p then 1 else 0

/-- Lines 44-46: elementwise indicator that the predicted label equals the
target. -/
def correct_mask (input target : List ℚ) : List ℚ :=
  List.zipWith (fun l t => if l = t then (1 : ℚ) else 0)
    (predicted_labels input) target

/-- Line 48: `k = torch.sum(correct_mask).type(torch.int64)` (the sum is a
non-negative integer, so the truncating cast is the floor). -/
def kRaw (input target : List ℚ) : ℤ := ⌊(correct_mask input target).sum⌋

/-- Line 49: `k_p = torch.sum(1.0 - correct_mask).type(torch.int64)`. -/
def kpRaw (input target : List ℚ) : ℤ :=
  ⌊((correct_mask input target).map fun c => 1 - c).sum⌋

/-- Line 50: `cond_k = 0` if the correct set is empty else `1`. -/
def cond_k (input target : List ℚ) : ℤ :=
  if kRaw input target = 0 then 0 else 1

/-- Line 51: `cond_k_p = 0` if the incorrect set is empty else `1`. -/
def cond_k_p (input target : List ℚ) : ℤ :=
  if kpRaw input target = 0 then 0 else 1

/-- Line 52: the top-k size used for the correct set. -/
def kSel (input target : List ℚ) : ℤ :=
  max (kRaw input target) 1 * cond_k input target * cond_k_p input target
    + (1 - cond_k input target * cond_k_p input target) * 2

/-- Lines 53-54: the top-k size used for the incorrect set
(`correct_mask.shape[0] - 2` in the degenerate branch). -/
def kpSel (input target : List ℚ) : ℤ :=
  max (kpRaw input target) 1 * cond_k_p input target * cond_k input target
    + (1 - cond_k_p input target * cond_k input target)
      * ((correct_mask input target).length - 2)

/-- Values of `torch.topk(v, k)`: the `k` largest entries in descending
order; `none` when `k` is outside `[0, len v]` (a runtime error in torch). -/
def topkVals (v : List ℚ) (k : ℤ) : Option (List ℚ) :=
  if 0 ≤ k ∧ k.toNat ≤ v.length then
    some ((List.insertionSort (fun a b => b ≤ a) v).take k.toNat)
  else none

/-- Line 56: `correct_prob, _ = torch.topk(predicted_probs * correct_mask, k)`. -/
def correct_prob (input target : List ℚ) : Option (List ℚ) :=
  topkVals
    (List.zipWith (fun p c => p * c) (predicted_probs input) (correct_mask input target))
    (kSel input target)

/-- Line 57: `incorrect_prob, _ = torch.topk(predicted_probs * (1 - correct_mask), k_p)`. -/
def incorrect_prob (input target : List ℚ) : Option (List ℚ) :=
  topkVals
    (List.zipWith (fun p c => p * (1 - c)) (predicted_probs input) (correct_mask input target))
    (kpSel input target)

/-- Line 82: `m = torch.sum(correct_mask)` (kept as a float). -/
def mSum (input target : List ℚ) : ℚ := (correct_mask input target).sum

/-- Line 83: `n = torch.sum(1.0 - correct_mask)`. -/
def nSum (input target : List ℚ) : ℚ :=
  ((correct_mask input target).map fun c => 1 - c).sum

/-- Lines 59-86: the three weighted kernel statistics and the biased MMD
estimate `mmd_error`; `none` models NaN propagated from an empty mean or a
failed `topk`. -/
noncomputable def mmd_error (input target : List ℚ) : Option ℝ :=
  (correct_prob input target).bind fun cp =>
  (incorrect_prob input target).bind fun ip =>
  (get_out_tensor (kernelMat (get_pairs cp ip).1)
    (outerMat (cp.map fun a => 1 - a) (cp.map fun a => 1 - a))).bind fun ccV =>
  (get_out_tensor (kernelMat (get_pairs cp ip).2.1)
    (outerMat ip ip)).bind fun iiV =>
  (get_out_tensor (kernelMat (get_pairs cp ip).2.2)
    (outerMat (cp.map fun a => 1 - a) ip)).bind fun ciV =>
  some (1 / ((mSum input target : ℝ) * (mSum input target : ℝ) + (1e-5 : ℝ)) * ccV
      + 1 / ((nSum input target : ℝ) * (nSum input target : ℝ) + (1e-5 : ℝ)) * iiV
      - 2 / ((mSum input target : ℝ) * (nSum input target : ℝ) + (1e-5 : ℝ)) * ciV)

/-- Lines 87-89: the value returned by `MMCE_weighted.forward` on already
flattened inputs:
`torch.max(cond_k * cond_k_p * torch.sqrt(mmd_error + 1e-10), 0)`.
When `mmd_error + 1e-10` is negative, `torch.sqrt` yields NaN, which
survives the multiplication (even by 0) and `torch.max`; that path is
`none`. -/
noncomputable def mmceForward (input target : List ℚ) : Option ℝ :=
  (mmd_error input target).bind fun e =>
    if e + (1e-10 : ℝ) < 0 then none
    else some (max (((cond_k input target * cond_k_p input target : ℤ) : ℝ)
      * Real.sqrt (e + (1e-10 : ℝ))) 0)

/-- Lines 38-39: `forward` first flattens `input` and `target` with
`view(-1)`; 2-d tensors are lists of rows. -/
noncomputable def mmceForward2 (input target : List (List ℚ)) : Option ℝ :=
  mmceForward input.flatten target.flatten

/-! ### Part II: training orchestrator (src/SSGRL_calibration.py) -/

/-- Tensors of the orchestrator are flat lists of rationals. -/
abbrev Tensor : Type := List ℚ

/-- External collaborators of the orchestrator: the loss modules built in
`main` (lines 106-116) and the smoothing / feature-update routines imported
from `utils.label_smoothing` and `model.SSGRL`.  They are abstract
functions; the orchestrator only routes tensors through them. -/
structure Collab where
  bce : Tensor → Tensor → ℚ
  instanceLoss : Tensor → Tensor → ℚ
  mdca : Tensor → Tensor → ℚ
  focal : Tensor → Tensor → ℚ
  flsd : Tensor → Tensor → ℚ
  dca : Tensor → Tensor → ℚ
  mbls : Tensor → Tensor → ℚ
  dwbl : Tensor → Tensor → ℚ
  mmce : Tensor → Tensor → ℚ
  smoothTradition : Tensor → Tensor
  smoothDynamic : Tensor → Tensor → Tensor → ℕ → Option ℕ → Tensor
  updateFeature : Tensor → Tensor → Tensor → ℕ → Tensor

/-- The mutable per-class banks owned by a model (`model.prototype`,
`model.pos_feature`). -/
structure ModelState where
  prototype : Tensor
  posFeature : Tensor
deriving DecidableEq

/-- One training batch as seen by `Train`: the model outputs and semantic
features, the tri-state target, the full label vector, and the auxiliary
model's features (used only by `DPCAR_AUX`). -/
structure BatchData where
  outputs : Tensor
  semanticFeature : Tensor
  target : Tensor
  fullLabel : Tensor
  auxFeature : Tensor
deriving DecidableEq

/-- The configuration fields of `cfg` consumed by the embedded code. -/
structure TrainCfg where
  method : String
  interDistanceWeight : ℚ
  interExampleNums : ℕ
  generateLabelEpoch : ℕ
  computePrototypeEpoch : ℕ
  useRecomputePrototype : Bool
deriving DecidableEq

/-- Lines 209-212 (the fall-through of the label-smoothing dispatch):
`target_ = target.detach().clone(); target_[target_ < 0] = 0`. -/
def hardBinarize (t : Tensor) : Tensor :=
  t.map fun x => if x < 0 then 0 else x

/-- The targets produced by the label-smoothing stage: one tensor for the
single-target methods, a pair for the DPCAR methods. -/
inductive SmoothTargets where
  | single (t : Tensor)
  | pair (ti tp : Tensor)
deriving DecidableEq

/-- Lines 189-212 of `Train`: the label-smoothing dispatch on
`cfg.model.method`.  It returns the produced target(s) together with the
updated model and auxiliary-model states (`update_feature` mutates
`pos_feature`).  The string comparisons are the exact, case-sensitive
comparisons of the source. -/
def smoothStage (C : Collab) (cfg : TrainCfg) (model aux : ModelState)
    (b : BatchData) (epoch : ℕ) : SmoothTargets × ModelState × ModelState :=
  if cfg.method = "label_smoothing" then
    (.single (C.smoothTradition b.fullLabel), model, aux)
  else if cfg.method = "prototype" then
    (.single (C.smoothDynamic b.fullLabel model.prototype b.semanticFeature epoch none),
     model, aux)
  else if cfg.method = "instance" then
    let model' := { model with
      posFeature := C.updateFeature model.posFeature b.semanticFeature b.target cfg.interExampleNums }
    (.single (C.smoothDynamic b.fullLabel model'.posFeature b.semanticFeature epoch none),
     model', aux)
  else if cfg.method = "DPCAR" then
    let model' := { model with
      posFeature := C.updateFeature model.posFeature b.semanticFeature b.target cfg.interExampleNums }
    (.pair (C.smoothDynamic b.fullLabel model'.posFeature b.semanticFeature epoch (some 10))
           (C.smoothDynamic b.fullLabel model'.prototype b.semanticFeature epoch (some 10)),
     model', aux)
  else if cfg.method = "DPCAR_AUX" then
    let aux' := { aux with
      posFeature := C.updateFeature aux.posFeature b.auxFeature b.target cfg.interExampleNums }
    (.pair (C.smoothDynamic b.fullLabel aux'.posFeature b.auxFeature epoch (some 10))
           (C.smoothDynamic b.fullLabel aux'.prototype b.auxFeature epoch (some 10)),
     model, aux')
  else
    (.single (hardBinarize b.target), model, aux)

/-- Lines 222-223 and 239-240: the instance-contrastive ("plus") term with
its first-epoch warm-up:
`w * L if epoch >= 1 else w * L * batch_index / float(len(train_loader))`. -/
def warmPlus (C : Collab) (cfg : TrainCfg) (b : BatchData)
    (epoch batchIndex numBatches : ℕ) : ℚ :=
  if 1 ≤ epoch then
    cfg.interDistanceWeight * C.instanceLoss b.semanticFeature b.target
  else
    cfg.interDistanceWeight * C.instanceLoss b.semanticFeature b.target
      * (batchIndex : ℚ) / (numBatches : ℚ)

/-- Lines 215-301 of `Train`: the loss dispatch on `cfg.model.method`,
producing `(loss_base_, loss_plus_, loss_calibration_)`.  A branch that
reads a target name the smoothing stage did not define would be a Python
`NameError`; that impossible combination is `none`. -/
def lossStage (C : Collab) (cfg : TrainCfg) (b : BatchData)
    (st : SmoothTargets) (epoch batchIndex numBatches : ℕ) :
    Option (ℚ × ℚ × ℚ) :=
  if cfg.method = "DPCAR" then
    match st with
    | .pair ti tp =>
        some ((C.bce b.outputs ti + C.bce b.outputs tp) / 2,
              warmPlus C cfg b epoch batchIndex numBatches, 0)
    | .single _ => none
  else if cfg.method = "DPCAR_AUX" then
    match st with
    | .pair ti tp => some ((C.bce b.outputs ti + C.bce b.outputs tp) / 2, 0, 0)
    | .single _ => none
  else if cfg.method = "instance" ∨ cfg.method = "PROTOTYPE" then
    match st with
    | .single t =>
        some (C.bce b.outputs t, warmPlus C cfg b epoch batchIndex numBatches, 0)
    | .pair _ _ => none
  else if cfg.method = "FL" then
    match st with
    | .single t => some (C.focal b.outputs t, 0, 0)
    | .pair _ _ => none
  else if cfg.method = "FLSD" then
    match st with
    | .single t => some (C.flsd b.outputs t, 0, 0)
    | .pair _ _ => none
  else if cfg.method = "MDCA" then
    match st with
    | .single t => some (C.bce b.outputs t, 0, C.mdca b.outputs t)
    | .pair _ _ => none
  else if cfg.method = "DCA" then
    match st with
    | .single t => some (C.bce b.outputs t, 0, C.dca b.outputs t)
    | .pair _ _ => none
  else if cfg.method = "MbLS" then
    match st with
    | .single t => some (C.bce b.outputs t, 0, C.mbls b.outputs t)
    | .pair _ _ => none
  else if cfg.method = "DWBL" then
    match st with
    | .single t => some (C.dwbl b.outputs t, 0, 0)
    | .pair _ _ => none
  else if cfg.method = "MMCE" then
    match st with
    | .single t => some (C.bce b.outputs t, 0, C.mmce b.outputs t)
    | .pair _ _ => none
  else
    match st with
    | .single t => some (C.bce b.outputs t, 0, 0)
    | .pair _ _ => none

/-- One batch of `Train`: the smoothing stage followed by the loss stage;
returns the three loss components and the updated model states. -/
def trainBatch (C : Collab) (cfg : TrainCfg) (model aux : ModelState)
    (b : BatchData) (epoch batchIndex numBatches : ℕ) :
    Option ((ℚ × ℚ × ℚ) × ModelState × ModelState) :=
  let s := smoothStage C cfg model aux b epoch
  (lossStage C cfg b s.1 epoch batchIndex numBatches).map fun p => (p, s.2)

/-- Every method string that selects a non-default branch somewhere in
`Train` (label-smoothing dispatch at lines 189-208, loss dispatch at
lines 215-291) or in the prototype phase of `main`. -/
def recognizedMethods : List String :=
  ["label_smoothing", "prototype", "instance", "DPCAR", "DPCAR_AUX",
   "PROTOTYPE", "FL", "FLSD", "MDCA", "DCA", "MbLS", "DWBL", "MMCE"]

/-- Lines 132-139 of `main`: whether `compute_prototype(model, ...)` runs
at the start of this epoch (outer condition on method and epoch, inner
condition on first-generation epoch or recompute flag). -/
def computePrototypePhase (cfg : TrainCfg) (epoch : ℕ) : Bool :=
  if (cfg.method = "DPCAR" ∨ cfg.method = "PROTOTYPE")
      ∧ cfg.generateLabelEpoch ≤ epoch
      ∧ epoch % cfg.computePrototypeEpoch = 0 then
    decide (epoch = cfg.generateLabelEpoch ∨ cfg.useRecomputePrototype = true)
  else
    false

/-- Checkpoint payload of `save_checkpoint` (line 157):
`{'epoch': epoch, 'state_dict': ..., 'best_mAP': mAP}`. -/
structure Checkpoint (P : Type) where
  epoch : ℕ
  state_dict : P
  best_mAP : ℚ
deriving DecidableEq

/-- Line 156: `isBest, best_prec = mAP > best_prec, max(mAP, best_prec)`
(both right-hand sides read the previous `best_prec`). -/
def bestUpdate (best_prec mAP : ℚ) : Bool × ℚ :=
  (decide (best_prec < mAP), max mAP best_prec)

/-- Lines 156-157: the per-epoch bookkeeping: the best-marker and new best
value, and the checkpoint payload, whose `best_mAP` field is the current
epoch's `mAP` (not the running best). -/
def epochCheckpoint (P : Type) (epoch : ℕ) (sd : P) (best_prec mAP : ℚ) :
    (Bool × ℚ) × Checkpoint P :=
  (bestUpdate best_prec mAP, ⟨epoch, sd, mAP⟩)

/-- The running best across the epoch loop: the value of `best_prec` after
each prefix of the epochs' mAP values (initial value included). -/
def bestTrace (init : ℚ) (maps : List ℚ) : List ℚ :=
  maps.scanl (fun b m => (bestUpdate b m).2) init

/-! ### Generic list and matrix lemmas -/

theorem mem_zipWith_ex {α β γ : Type} {f : α → β → γ} {l1 : List α}
    {l2 : List β} {x : γ} (hx : x ∈ List.zipWith f l1 l2) :
    ∃ a ∈ l1, ∃ b ∈ l2, x = f a b := by
  induction l1 generalizing l2 with
  | nil => simp at hx
  | cons a t ih =>
    cases l2 with
    | nil => simp at hx
    | cons b s =>
      rcases List.mem_cons.mp hx with h | h
      · exact ⟨a, List.mem_cons_self a t, b, List.mem_cons_self b s, h⟩
      · obtain ⟨a', ha', b', hb', hx'⟩ := ih h
        exact ⟨a', List.mem_cons_of_mem _ ha', b', List.mem_cons_of_mem _ hb', hx'⟩

theorem zipWith_map_same {α β γ δ : Type} (F : β → γ → δ) (g : α → β)
    (h : α → γ) (l : List α) :
    List.zipWith F (l.map g) (l.map h) = l.map fun a => F (g a) (h a) := by
  induction l with
  | nil => rfl
  | cons a t ih => simp [ih]

theorem length_zipWith_same {α β γ : Type} (f : α → β → γ) (l1 : List α)
    (l2 : List β) : (List.zipWith f l1 l2).length = min l1.length l2.length :=
  List.length_zipWith ..

theorem matNumel_map_map {α β γ : Type} (l : List α) (m : List β)
    (g : α → β → γ) :
    matNumel (l.map fun a => m.map (g a)) = l.length * m.length := by
  induction l with
  | nil => simp [matNumel]
  | cons a t ih =>
    simp only [matNumel, List.map_cons, List.sum_cons, List.length_map,
      List.length_cons] at ih ⊢
    rw [ih]
    ring

theorem sum_le_length_mul (l : List ℝ) (c : ℝ) (h : ∀ x ∈ l, x ≤ c) :
    l.sum ≤ (l.length : ℝ) * c := by
  induction l with
  | nil => simp
  | cons a t ih =>
    have ha := h a (List.mem_cons_self a t)
    have ht := ih fun x hx => h x (List.mem_cons_of_mem _ hx)
    simp only [List.sum_cons, List.length_cons]
    push_cast
    nlinarith

theorem sum_eq_length_mul (l : List ℝ) (c : ℝ) (h : ∀ x ∈ l, x = c) :
    l.sum = (l.length : ℝ) * c := by
  induction l with
  | nil => simp
  | cons a t ih =>
    have ha := h a (List.mem_cons_self a t)
    have ht := ih fun x hx => h x (List.mem_cons_of_mem _ hx)
    simp only [List.sum_cons, List.length_cons, ha, ht]
    push_cast
    ring

theorem matSum_nonneg (M : List (List ℝ)) (h : ∀ row ∈ M, ∀ x ∈ row, 0 ≤ x) :
    0 ≤ matSum M := by
  refine List.sum_nonneg ?_
  intro s hs
  obtain ⟨row, hrow, rfl⟩ := List.mem_map.mp hs
  exact List.sum_nonneg (h row hrow)

theorem matSum_le (M : List (List ℝ)) (c : ℝ)
    (h : ∀ row ∈ M, ∀ x ∈ row, x ≤ c) :
    matSum M ≤ (matNumel M : ℝ) * c := by
  induction M with
  | nil => simp [matSum, matNumel]
  | cons row M ih =>
    have hrow := sum_le_length_mul row c (h row (List.mem_cons_self row M))
    have hM := ih fun r hr => h r (List.mem_cons_of_mem _ hr)
    simp only [matSum, matNumel, List.map_cons, List.sum_cons] at hM ⊢
    rw [Nat.cast_add, add_mul]
    exact add_le_add hrow hM

theorem matSum_eq_const (M : List (List ℝ)) (c : ℝ)
    (h : ∀ row ∈ M, ∀ x ∈ row, x = c) :
    matSum M = (matNumel M : ℝ) * c := by
  induction M with
  | nil => simp [matSum, matNumel]
  | cons row M ih =>
    have hrow := sum_eq_length_mul row c (h row (List.mem_cons_self row M))
    have hM := ih fun r hr => h r (List.mem_cons_of_mem _ hr)
    simp only [matSum, matNumel, List.map_cons, List.sum_cons] at hM ⊢
    rw [Nat.cast_add, add_mul, hrow, hM]

theorem sum_eq_length_of_one (l : List ℚ) (h : ∀ x ∈ l, x = 1) :
    l.sum = (l.length : ℚ) := by
  induction l with
  | nil => simp
  | cons a t ih =>
    have ha := h a (List.mem_cons_self a t)
    have ht := ih fun x hx => h x (List.mem_cons_of_mem _ hx)
    simp [ha, ht]
    ring

/-! ### Structural lemmas about the MMCE embedding -/

theorem predicted_probs_mem (input : List ℚ) :
    ∀ x ∈ predicted_probs input, 1/2 ≤ x := by
  intro x hx
  obtain ⟨p, _, rfl⟩ := List.mem_map.mp hx
  by_cases h : 1/2 ≤ p
  · rw [if_pos h]
    exact h
  · push_neg at h
    rw [if_neg (not_le.mpr h)]
    linarith

theorem predicted_probs_eq_max (input : List ℚ) :
    predicted_probs input = input.map fun p => max p (1 - p) := by
  unfold predicted_probs
  refine List.map_congr_left fun p _ => ?_
  by_cases h : 1/2 ≤ p
  · rw [if_pos h, max_eq_left (by linarith)]
  · push_neg at h
    rw [if_neg (not_le.mpr h), max_eq_right (by linarith)]

theorem correct_mask_mem (input target : List ℚ) :
    ∀ x ∈ correct_mask input target, x = 0 ∨ x = 1 := by
  intro x hx
  obtain ⟨l, _, t, _, rfl⟩ := mem_zipWith_ex hx
  by_cases h : l = t <;> simp [h]

theorem correct_mask_length (input target : List ℚ)
    (h : input.length = target.length) :
    (correct_mask input target).length = input.length := by
  simp [correct_mask, length_zipWith_same, predicted_labels, h]

theorem correct_mask_sum_nonneg (input target : List ℚ) :
    0 ≤ (correct_mask input target).sum := by
  refine List.sum_nonneg fun x hx => ?_
  rcases correct_mask_mem input target x hx with rfl | rfl <;> norm_num

/-- The sum of `1 - c` over the mask equals length minus the mask sum. -/
theorem one_sub_mask_sum (mask : List ℚ) :
    (mask.map fun c => 1 - c).sum = (mask.length : ℚ) - mask.sum := by
  induction mask with
  | nil => simp
  | cons a t ih => simp [ih]; ring

theorem topkVals_eq_some (v : List ℚ) (k : ℤ) (h0 : 0 ≤ k)
    (hk : k.toNat ≤ v.length) :
    topkVals v k = some ((List.insertionSort (fun a b => b ≤ a) v).take k.toNat) := by
  rw [topkVals, if_pos ⟨h0, hk⟩]

theorem topkVals_mem {v l : List ℚ} {k : ℤ} (h : topkVals v k = some l) :
    ∀ x ∈ l, x ∈ v := by
  intro x hx
  rw [topkVals] at h
  split at h
  · cases h
    exact (List.perm_insertionSort _ v).mem_iff.mp (List.take_subset _ _ hx)
  · cases h

theorem topkVals_length {v l : List ℚ} {k : ℤ} (h : topkVals v k = some l) :
    l.length = min k.toNat v.length := by
  rw [topkVals] at h
  split at h
  · cases h
    rw [List.length_take, (List.perm_insertionSort _ v).length_eq]
  · cases h

/-! ### Collapsing the pair-matrix pipeline to weighted kernel sums -/

/-- The correct x correct branch of the pipeline, as a plain double map. -/
theorem ccMat_collapse (cp ip : List ℚ) :
    matMap2 mulRQ (kernelMat (get_pairs cp ip).1)
        (outerMat (cp.map fun a => 1 - a) (cp.map fun a => 1 - a)) =
      cp.map fun a => cp.map fun b =>
        torch_kernel_entry (a, b) * (((1 - a) * (1 - b) : ℚ) : ℝ) := by
  simp only [get_pairs, kernelMat, outerMat, matMap2, List.map_map]
  rw [zipWith_map_same]
  refine List.map_congr_left fun a _ => ?_
  simp only [List.map_map, Function.comp_def]
  rw [zipWith_map_same]
  rfl

/-- The incorrect x incorrect branch of the pipeline. -/
theorem iiMat_collapse (cp ip : List ℚ) :
    matMap2 mulRQ (kernelMat (get_pairs cp ip).2.1) (outerMat ip ip) =
      ip.map fun a => ip.map fun b =>
        torch_kernel_entry (a, b) * ((a * b : ℚ) : ℝ) := by
  simp only [get_pairs, kernelMat, outerMat, matMap2, List.map_map]
  rw [zipWith_map_same]
  refine List.map_congr_left fun a _ => ?_
  simp only [List.map_map, Function.comp_def]
  rw [zipWith_map_same]
  rfl

/-- The correct x incorrect branch of the pipeline. -/
theorem ciMat_collapse (cp ip : List ℚ) :
    matMap2 mulRQ (kernelMat (get_pairs cp ip).2.2)
        (outerMat (cp.map fun a => 1 - a) ip) =
      cp.map fun a => ip.map fun b =>
        torch_kernel_entry (a, b) * (((1 - a) * b : ℚ) : ℝ) := by
  simp only [get_pairs, kernelMat, outerMat, matMap2, List.map_map]
  rw [zipWith_map_same]
  refine List.map_congr_left fun a _ => ?_
  simp only [List.map_map, Function.comp_def]
  rw [zipWith_map_same]
  rfl

/-- Rewrites `get_out_tensor` through a collapsed form of its entrywise
product. -/
theorem get_out_tensor_of_collapse {t1 : List (List ℝ)} {t2 : List (List ℚ)}
    {M : List (List ℝ)} (h : matMap2 mulRQ t1 t2 = M) :
    get_out_tensor t1 t2 =
      if matNumel M = 0 then none
      else some (matSum M / (matNumel M : ℝ)) := by
  rw [get_out_tensor, h]

/-! ### Kernel value facts -/

theorem torch_kernel_entry_pos (p : ℚ × ℚ) : 0 < torch_kernel_entry p :=
  Real.exp_pos _

theorem torch_kernel_entry_le_one (p : ℚ × ℚ) : torch_kernel_entry p ≤ 1 := by
  have habs := abs_nonneg ((p.1 : ℝ) - (p.2 : ℝ))
  have h : -1.0 * |(p.1 : ℝ) - (p.2 : ℝ)| / (0.4 : ℝ) ≤ 0 := by
    apply div_nonpos_of_nonpos_of_nonneg <;> nlinarith
  calc torch_kernel_entry p ≤ Real.exp 0 := Real.exp_le_exp.mpr h
  _ = 1 := Real.exp_zero

theorem torch_kernel_entry_same (a : ℚ) : torch_kernel_entry (a, a) = 1 := by
  simp [torch_kernel_entry, Real.exp_zero]

theorem torch_kernel_entry_symm (a b : ℚ) :
    torch_kernel_entry (a, b) = torch_kernel_entry (b, a) := by
  simp [torch_kernel_entry, abs_sub_comm]

/-- The cross-pair entry with a zeroed correct-set confidence: for any
non-negative incorrect confidence `b`, `exp(-b/0.4) * b` is at most 1/2. -/
theorem kernel_zero_weight_le_half (b : ℚ) (hb : 0 ≤ b) :
    torch_kernel_entry (0, b) * ((b : ℚ) : ℝ) ≤ 1/2 := by
  have hx0 : (0:ℝ) ≤ (b : ℝ) := by exact_mod_cast hb
  have habs : |(((0:ℚ) : ℝ)) - (b : ℝ)| = (b : ℝ) := by
    push_cast
    rw [zero_sub, abs_neg, abs_of_nonneg hx0]
  have harg : -1.0 * |(((0:ℚ)) : ℝ) - ((b : ℚ) : ℝ)| / (0.4 : ℝ) =
      -((b : ℝ) / 0.4) := by
    rw [habs]; ring
  have h1 : (b : ℝ) / 0.4 + 1 ≤ Real.exp ((b : ℝ) / 0.4) := Real.add_one_le_exp _
  have hE : (0:ℝ) < Real.exp ((b : ℝ) / 0.4) := Real.exp_pos _
  have h2 : 2 * (b : ℝ) ≤ Real.exp ((b : ℝ) / 0.4) := by
    calc 2 * (b : ℝ) ≤ (b : ℝ) / 0.4 + 1 := by
          rw [show (0.4 : ℝ) = 2/5 from by norm_num]
          linarith
    _ ≤ Real.exp ((b : ℝ) / 0.4) := h1
  rw [torch_kernel_entry]
  show Real.exp (-1.0 * |((0:ℚ):ℝ) - ((b:ℚ):ℝ)| / (0.4 : ℝ)) * (b : ℝ) ≤ 1/2
  rw [harg, Real.exp_neg, inv_mul_le_iff₀ hE]
  linarith

/-- A symmetric 2-point weighted kernel sum is non-negative whenever the
kernel value is between 0 and 1. -/
theorem quad_form_nonneg (x y κ : ℝ) (h0 : 0 ≤ κ) (h1 : κ ≤ 1) :
    0 ≤ x * x + y * y + 2 * κ * (x * y) := by
  nlinarith [sq_nonneg (x + y), mul_nonneg h0 (sq_nonneg (x + y)),
    mul_nonneg (sub_nonneg.mpr h1) (add_nonneg (sq_nonneg x) (sq_nonneg y))]

/-! ### Claim C7 -/

/-- C7: `MMCE_weighted.forward` flattens predictions and targets to 1-d;
the per-element confidence is `max(p, 1-p)`, the predicted label is 1
exactly when `p >= 0.5`, and the correct/incorrect partition indicator
compares the predicted label with the target elementwise. -/
theorem C7_flatten_confidence_partition (input target : List (List ℚ)) :
    mmceForward2 input target = mmceForward input.flatten target.flatten ∧
    predicted_probs input.flatten = input.flatten.map (fun p => max p (1 - p)) ∧
    predicted_labels input.flatten =
      input.flatten.map (fun p => if 1/2 ≤ p then (1 : ℚ) else 0) ∧
    correct_mask input.flatten target.flatten =
      List.zipWith
        (fun p t => if (if 1/2 ≤ p then (1 : ℚ) else 0) = t then (1 : ℚ) else 0)
        input.flatten target.flatten := by
  refine ⟨rfl, predicted_probs_eq_max _, rfl, ?_⟩
  rw [correct_mask, predicted_labels, List.zipWith_map_left]

/-! ### Claim C3 -/

theorem kpRaw_nonneg (input target : List ℚ) : 0 ≤ kpRaw input target := by
  refine Int.floor_nonneg.mpr (List.sum_nonneg fun x hx => ?_)
  obtain ⟨c, hc, rfl⟩ := List.mem_map.mp hx
  rcases correct_mask_mem input target c hc with rfl | rfl <;> norm_num

theorem kRaw_nonneg (input target : List ℚ) : 0 ≤ kRaw input target :=
  Int.floor_nonneg.mpr (correct_mask_sum_nonneg input target)

/-- C3 (amended): when both the correct set and the incorrect set are
non-empty, the top-k sizes are the two sets' own full sizes `k` and `k_p`;
when either set is empty, the correct-set size becomes 2 and the
incorrect-set size becomes `total - 2`, with no minimum-1 floor. -/
theorem C3_topk_sizes (input target : List ℚ) :
    (kRaw input target ≠ 0 ∧ kpRaw input target ≠ 0 →
      kSel input target = kRaw input target ∧
      kpSel input target = kpRaw input target) ∧
    (kRaw input target = 0 ∨ kpRaw input target = 0 →
      kSel input target = 2 ∧
      kpSel input target = ((correct_mask input target).length : ℤ) - 2) := by
  have hk0 := kRaw_nonneg input target
  have hkp0 := kpRaw_nonneg input target
  constructor
  · rintro ⟨h1, h2⟩
    simp only [kSel, kpSel, cond_k, cond_k_p, if_neg h1, if_neg h2]
    omega
  · rintro (h | h)
    · simp only [kSel, kpSel, cond_k, cond_k_p, if_pos h, mul_zero, zero_mul]
      omega
    · simp only [kSel, kpSel, cond_k, cond_k_p, if_pos h, mul_zero, zero_mul]
      omega

/-- Witness for C3 at a concrete all-correct batch of 5 elements. -/
theorem C3_topk_sizes_witness :
    (kRaw [(1:ℚ), 1, 1, 1, 1] [(1:ℚ), 1, 1, 1, 1] = 0 ∨
      kpRaw [(1:ℚ), 1, 1, 1, 1] [(1:ℚ), 1, 1, 1, 1] = 0) ∧
    (kSel [(1:ℚ), 1, 1, 1, 1] [(1:ℚ), 1, 1, 1, 1] = 2 ∧
      kpSel [(1:ℚ), 1, 1, 1, 1] [(1:ℚ), 1, 1, 1, 1] =
        ((correct_mask [(1:ℚ), 1, 1, 1, 1] [(1:ℚ), 1, 1, 1, 1]).length : ℤ) - 2) :=
  ⟨Or.inr (by norm_num [kpRaw, correct_mask, predicted_labels]),
   (C3_topk_sizes _ _).2 (Or.inr (by norm_num [kpRaw, correct_mask, predicted_labels]))⟩

/-- Counterexample to C3 as stated: for an all-correct batch of 5 elements
(incorrect set empty, total 5), the code resolves the correct-set size to 2
and the incorrect-set size to 3, whereas the claim predicts the empty set's
size clamped to 1 and the non-empty set's full size 5. -/
theorem C3_counterexample :
    kSel [(1:ℚ), 1, 1, 1, 1] [(1:ℚ), 1, 1, 1, 1] = 2 ∧
    kpSel [(1:ℚ), 1, 1, 1, 1] [(1:ℚ), 1, 1, 1, 1] = 3 ∧
    ¬(kpSel [(1:ℚ), 1, 1, 1, 1] [(1:ℚ), 1, 1, 1, 1] = 1) ∧
    ¬(kSel [(1:ℚ), 1, 1, 1, 1] [(1:ℚ), 1, 1, 1, 1] = 5) := by
  norm_num [kSel, kpSel, cond_k, cond_k_p, kRaw, kpRaw, correct_mask,
    predicted_labels]

/-! ### Claim C5 -/

theorem bestTrace_chain (maps : List ℚ) :
    ∀ init : ℚ, List.Chain' (· ≤ ·)
      (List.scanl (fun b m => (bestUpdate b m).2) init maps) := by
  induction maps with
  | nil =>
    intro init
    simp only [List.scanl_nil]
    exact List.chain'_singleton init
  | cons m ms ih =>
    intro init
    simp only [List.scanl_cons]
    cases ms with
    | nil =>
      simp only [List.scanl_nil]
      exact List.chain'_cons.mpr ⟨le_max_right m init, List.chain'_singleton _⟩
    | cons m2 ms2 =>
      simp only [List.scanl_cons]
      refine List.chain'_cons.mpr ⟨le_max_right m init, ?_⟩
      have h := ih ((bestUpdate init m).2)
      simp only [List.scanl_cons] at h
      exact h

/-- C5: after each epoch the tracked best mAP equals the maximum of the
previous best and the current mAP, it never decreases, the "best" marker
is set exactly when the current mAP strictly exceeds the prior best, and
the running best is monotone non-decreasing along the whole epoch loop. -/
theorem C5_best_tracking (best mAP init : ℚ) (maps : List ℚ) :
    (bestUpdate best mAP).2 = max best mAP ∧
    best ≤ (bestUpdate best mAP).2 ∧
    ((bestUpdate best mAP).1 = true ↔ best < mAP) ∧
    List.Chain' (· ≤ ·) (bestTrace init maps) := by
  refine ⟨max_comm mAP best, le_max_right mAP best, ?_, bestTrace_chain maps init⟩
  simp [bestUpdate]

/-! ### Claim C6 -/

/-- C6 (amended): the checkpoint written at the end of every epoch persists
the epoch number, the model parameters, and the *current* epoch's mAP
(stored under the key `best_mAP`); it coincides with the running best
exactly when the epoch's mAP is at least the prior best. -/
theorem C6_checkpoint_payload (P : Type) (epoch : ℕ) (sd : P)
    (best mAP : ℚ) :
    (epochCheckpoint P epoch sd best mAP).2.epoch = epoch ∧
    (epochCheckpoint P epoch sd best mAP).2.state_dict = sd ∧
    (epochCheckpoint P epoch sd best mAP).2.best_mAP = mAP ∧
    ((epochCheckpoint P epoch sd best mAP).2.best_mAP =
        (bestUpdate best mAP).2 ↔ best ≤ mAP) := by
  refine ⟨rfl, rfl, rfl, ?_⟩
  simp only [epochCheckpoint, bestUpdate]
  rw [eq_comm, max_eq_left_iff]

/-- Counterexample to C6 as stated: in an epoch whose mAP (1/2) is below
the prior best (4/5), the running best stays 4/5 but the checkpoint's
`best_mAP` field records 1/2, so the checkpoint does not persist the best
mAP achieved so far. -/
theorem C6_counterexample :
    (epochCheckpoint Unit 7 () (4/5) (1/2)).2.best_mAP = 1/2 ∧
    (bestUpdate (4/5) (1/2)).2 = 4/5 ∧
    ((1:ℚ)/2) ≠ 4/5 := by
  norm_num [epochCheckpoint, bestUpdate, max_def]

/-! ### Claim C4 -/

/-- The statistic `get_out_tensor` (line 35, `torch.mean`) computes on one
collapsed pair matrix: the MEAN of the weighted kernel entries, i.e. their
sum divided by the number of pairs.  This is a code-side quantity. -/
noncomputable def weightedKernelMean (xs ys : List ℚ) (w : ℚ → ℚ → ℚ) : ℝ :=
  matSum (xs.map fun a => ys.map fun b =>
      torch_kernel_entry (a, b) * ((w a b : ℚ) : ℝ))
    / ((xs.length * ys.length : ℕ) : ℝ)

/-- The plain SUM of the weighted kernel entries over one pair matrix, the
quantity the claim's formula `sum(... weighted)` denotes (spec-side
definition for the refinement claim C4); unlike `weightedKernelMean` it is
not divided by the number of pairs. -/
noncomputable def specWeightedSum (xs ys : List ℚ) (w : ℚ → ℚ → ℚ) : ℝ :=
  matSum (xs.map fun a => ys.map fun b =>
      torch_kernel_entry (a, b) * ((w a b : ℚ) : ℝ))

/-- The biased MMD estimate exactly as the claim states it:
`sum(correct·correct weighted)/m^2 + sum(incorrect·incorrect weighted)/n^2
- 2·sum(correct·incorrect weighted)/(m·n)` with `1e-5` added to every
denominator; weights are `(1-c)(1-c')`, `d d'` and `(1-c)d` (spec-side
definition, to be compared with what the code computes). -/
noncomputable def specMMDFormula (cp ip : List ℚ) (m n : ℚ) : ℝ :=
  1 / ((m : ℝ) * (m : ℝ) + (1e-5 : ℝ))
      * specWeightedSum cp cp (fun a b => (1 - a) * (1 - b))
    + 1 / ((n : ℝ) * (n : ℝ) + (1e-5 : ℝ))
      * specWeightedSum ip ip (fun a b => a * b)
    - 2 / ((m : ℝ) * (n : ℝ) + (1e-5 : ℝ))
      * specWeightedSum cp ip (fun a b => (1 - a) * b)

/-- The closed form the code actually computes: each of the claim's
weighted kernel sums is additionally divided by the entry count of its
pair matrix (`k^2`, `k_p^2`, `k·k_p` — the `torch.mean` inside
`get_out_tensor`) before the `1/(m^2+1e-5)`-style factors are applied. -/
noncomputable def mmdCodeEstimate (cp ip : List ℚ) (m n : ℚ) : ℝ :=
  1 / ((m : ℝ) * (m : ℝ) + (1e-5 : ℝ))
      * (specWeightedSum cp cp (fun a b => (1 - a) * (1 - b))
        / ((cp.length * cp.length : ℕ) : ℝ))
    + 1 / ((n : ℝ) * (n : ℝ) + (1e-5 : ℝ))
      * (specWeightedSum ip ip (fun a b => a * b)
        / ((ip.length * ip.length : ℕ) : ℝ))
    - 2 / ((m : ℝ) * (n : ℝ) + (1e-5 : ℝ))
      * (specWeightedSum cp ip (fun a b => (1 - a) * b)
        / ((cp.length * ip.length : ℕ) : ℝ))

theorem cc_some (cp ip : List ℚ) (hcp : cp ≠ []) :
    get_out_tensor (kernelMat (get_pairs cp ip).1)
      (outerMat (cp.map fun a => 1 - a) (cp.map fun a => 1 - a)) =
    some (weightedKernelMean cp cp fun a b => (1 - a) * (1 - b)) := by
  have hne : cp.length ≠ 0 := fun h0 => hcp (List.length_eq_zero.mp h0)
  rw [get_out_tensor_of_collapse (ccMat_collapse cp ip), matNumel_map_map,
    if_neg (Nat.mul_ne_zero hne hne)]
  rfl

theorem ii_some (cp ip : List ℚ) (hip : ip ≠ []) :
    get_out_tensor (kernelMat (get_pairs cp ip).2.1) (outerMat ip ip) =
    some (weightedKernelMean ip ip fun a b => a * b) := by
  have hne : ip.length ≠ 0 := fun h0 => hip (List.length_eq_zero.mp h0)
  rw [get_out_tensor_of_collapse (iiMat_collapse cp ip), matNumel_map_map,
    if_neg (Nat.mul_ne_zero hne hne)]
  rfl

theorem ci_some (cp ip : List ℚ) (hcp : cp ≠ []) (hip : ip ≠ []) :
    get_out_tensor (kernelMat (get_pairs cp ip).2.2)
      (outerMat (cp.map fun a => 1 - a) ip) =
    some (weightedKernelMean cp ip fun a b => (1 - a) * b) := by
  have hne : cp.length ≠ 0 := fun h0 => hcp (List.length_eq_zero.mp h0)
  have hne' : ip.length ≠ 0 := fun h0 => hip (List.length_eq_zero.mp h0)
  rw [get_out_tensor_of_collapse (ciMat_collapse cp ip), matNumel_map_map,
    if_neg (Nat.mul_ne_zero hne hne')]
  rfl

/-- C4 (amended): when both selected confidence vectors are non-empty, the
value of `mmd_error` is the claim's three weighted kernel SUMS each
divided additionally by the entry count of its pair matrix (the
`torch.mean` of `get_out_tensor`), then by the `1e-5`-offset denominators
`m^2`, `n^2`, `m·n`; the returned loss is the square root of the estimate
offset by `1e-10`, multiplied by the non-degenerate indicator and floored
at 0, with the negative-offset-estimate path yielding NaN. -/
theorem C4_mmd_formula (input target : List ℚ) (cp ip : List ℚ)
    (hcp : correct_prob input target = some cp)
    (hip : incorrect_prob input target = some ip)
    (hcp0 : cp ≠ []) (hip0 : ip ≠ []) :
    mmd_error input target =
      some (mmdCodeEstimate cp ip (mSum input target) (nSum input target)) ∧
    mmceForward input target =
      (if mmdCodeEstimate cp ip (mSum input target) (nSum input target)
          + (1e-10 : ℝ) < 0
       then none
       else some (max
         (((cond_k input target * cond_k_p input target : ℤ) : ℝ)
           * Real.sqrt (mmdCodeEstimate cp ip (mSum input target)
               (nSum input target) + (1e-10 : ℝ))) 0)) := by
  have hmmd : mmd_error input target =
      some (mmdCodeEstimate cp ip (mSum input target) (nSum input target)) := by
    unfold mmd_error
    simp only [hcp, hip, Option.some_bind, cc_some cp ip hcp0,
      ii_some cp ip hip0, ci_some cp ip hcp0 hip0]
    rfl
  refine ⟨hmmd, ?_⟩
  unfold mmceForward
  rw [hmmd, Option.some_bind]

/-- Witness for C4 at the batch `input = [1, 0, 1]`, `target = [1, 1, 1]`
(two correct, one incorrect sample). -/
theorem C4_mmd_formula_witness :
    (correct_prob [(1:ℚ), 0, 1] [(1:ℚ), 1, 1] = some [1, 1] ∧
     incorrect_prob [(1:ℚ), 0, 1] [(1:ℚ), 1, 1] = some [1] ∧
     ([(1:ℚ), 1] : List ℚ) ≠ [] ∧ ([(1:ℚ)] : List ℚ) ≠ []) ∧
    mmd_error [(1:ℚ), 0, 1] [(1:ℚ), 1, 1] =
      some (mmdCodeEstimate [1, 1] [1] (mSum [(1:ℚ), 0, 1] [(1:ℚ), 1, 1])
        (nSum [(1:ℚ), 0, 1] [(1:ℚ), 1, 1])) := by
  have h1 : correct_prob [(1:ℚ), 0, 1] [(1:ℚ), 1, 1] = some [1, 1] := by
    norm_num [correct_prob, topkVals, kSel, cond_k, cond_k_p, kRaw, kpRaw,
      correct_mask, predicted_labels, predicted_probs, List.insertionSort,
      List.orderedInsert, Int.toNat, List.take_succ_cons, List.take_zero]
  have h2 : incorrect_prob [(1:ℚ), 0, 1] [(1:ℚ), 1, 1] = some [1] := by
    norm_num [incorrect_prob, topkVals, kpSel, cond_k, cond_k_p, kRaw, kpRaw,
      correct_mask, predicted_labels, predicted_probs, List.insertionSort,
      List.orderedInsert, Int.toNat, List.take_succ_cons, List.take_zero]
  have h3 : ([(1:ℚ), 1] : List ℚ) ≠ [] := by simp
  have h4 : ([(1:ℚ)] : List ℚ) ≠ [] := by simp
  exact ⟨⟨h1, h2, h3, h4⟩,
    (C4_mmd_formula [(1:ℚ), 0, 1] [(1:ℚ), 1, 1] [1, 1] [1] h1 h2 h3 h4).1⟩

/-- Counterexample to C4 as stated: on the batch
`input = [3/4, 3/4, 3/4]`, `target = [1, 1, 0]` (two correct, one
incorrect, all confidences 3/4 so every kernel entry is `exp 0 = 1`), the
value of `mmd_error` differs from the claim's sum-based formula: the code
divides each weighted kernel sum additionally by its pair count — the
code's estimate is `(1/16)/(4+1e-5) + (9/16)/(1+1e-5) - 2·(3/16)/(2+1e-5)`
while the claim's formula gives
`(1/4)/(4+1e-5) + (9/16)/(1+1e-5) - 2·(3/8)/(2+1e-5)`. -/
theorem C4_counterexample :
    correct_prob [(3:ℚ)/4, 3/4, 3/4] [(1:ℚ), 1, 0] = some [3/4, 3/4] ∧
    incorrect_prob [(3:ℚ)/4, 3/4, 3/4] [(1:ℚ), 1, 0] = some [3/4] ∧
    mmd_error [(3:ℚ)/4, 3/4, 3/4] [(1:ℚ), 1, 0] ≠
      some (specMMDFormula [(3:ℚ)/4, 3/4] [(3:ℚ)/4]
        (mSum [(3:ℚ)/4, 3/4, 3/4] [(1:ℚ), 1, 0])
        (nSum [(3:ℚ)/4, 3/4, 3/4] [(1:ℚ), 1, 0])) := by
  have hcp : correct_prob [(3:ℚ)/4, 3/4, 3/4] [(1:ℚ), 1, 0] =
      some [3/4, 3/4] := by
    norm_num [correct_prob, topkVals, kSel, cond_k, cond_k_p, kRaw, kpRaw,
      correct_mask, predicted_labels, predicted_probs, List.insertionSort,
      List.orderedInsert, Int.toNat, List.take_succ_cons, List.take_zero]
  have hip : incorrect_prob [(3:ℚ)/4, 3/4, 3/4] [(1:ℚ), 1, 0] =
      some [3/4] := by
    norm_num [incorrect_prob, topkVals, kpSel, cond_k, cond_k_p, kRaw, kpRaw,
      correct_mask, predicted_labels, predicted_probs, List.insertionSort,
      List.orderedInsert, Int.toNat, List.take_succ_cons, List.take_zero]
  have hmq : mSum [(3:ℚ)/4, 3/4, 3/4] [(1:ℚ), 1, 0] = 2 := by
    norm_num [mSum, correct_mask, predicted_labels]
  have hnq : nSum [(3:ℚ)/4, 3/4, 3/4] [(1:ℚ), 1, 0] = 1 := by
    norm_num [nSum, correct_mask, predicted_labels]
  have hmr : (mSum [(3:ℚ)/4, 3/4, 3/4] [(1:ℚ), 1, 0] : ℝ) = 2 := by
    rw [hmq]; norm_num
  have hnr : (nSum [(3:ℚ)/4, 3/4, 3/4] [(1:ℚ), 1, 0] : ℝ) = 1 := by
    rw [hnq]; norm_num
  have hmmd : mmd_error [(3:ℚ)/4, 3/4, 3/4] [(1:ℚ), 1, 0] =
      some (1 / ((mSum [(3:ℚ)/4, 3/4, 3/4] [(1:ℚ), 1, 0] : ℝ)
            * (mSum [(3:ℚ)/4, 3/4, 3/4] [(1:ℚ), 1, 0] : ℝ) + (1e-5 : ℝ))
          * weightedKernelMean [(3:ℚ)/4, 3/4] [(3:ℚ)/4, 3/4]
            (fun a b => (1 - a) * (1 - b))
        + 1 / ((nSum [(3:ℚ)/4, 3/4, 3/4] [(1:ℚ), 1, 0] : ℝ)
            * (nSum [(3:ℚ)/4, 3/4, 3/4] [(1:ℚ), 1, 0] : ℝ) + (1e-5 : ℝ))
          * weightedKernelMean [(3:ℚ)/4] [(3:ℚ)/4] (fun a b => a * b)
        - 2 / ((mSum [(3:ℚ)/4, 3/4, 3/4] [(1:ℚ), 1, 0] : ℝ)
            * (nSum [(3:ℚ)/4, 3/4, 3/4] [(1:ℚ), 1, 0] : ℝ) + (1e-5 : ℝ))
          * weightedKernelMean [(3:ℚ)/4, 3/4] [(3:ℚ)/4]
            (fun a b => (1 - a) * b)) := by
    unfold mmd_error
    simp only [hcp, hip, Option.some_bind,
      cc_some [(3:ℚ)/4, 3/4] [(3:ℚ)/4] (by simp),
      ii_some [(3:ℚ)/4, 3/4] [(3:ℚ)/4] (by simp),
      ci_some [(3:ℚ)/4, 3/4] [(3:ℚ)/4] (by simp) (by simp)]
  have hA : weightedKernelMean [(3:ℚ)/4, 3/4] [(3:ℚ)/4, 3/4]
      (fun a b => (1 - a) * (1 - b)) = 1/16 := by
    norm_num [weightedKernelMean, matSum, torch_kernel_entry_same]
  have hB : weightedKernelMean [(3:ℚ)/4] [(3:ℚ)/4] (fun a b => a * b)
      = 9/16 := by
    norm_num [weightedKernelMean, matSum, torch_kernel_entry_same]
  have hC : weightedKernelMean [(3:ℚ)/4, 3/4] [(3:ℚ)/4]
      (fun a b => (1 - a) * b) = 3/16 := by
    norm_num [weightedKernelMean, matSum, torch_kernel_entry_same]
  have hA' : specWeightedSum [(3:ℚ)/4, 3/4] [(3:ℚ)/4, 3/4]
      (fun a b => (1 - a) * (1 - b)) = 1/4 := by
    norm_num [specWeightedSum, matSum, torch_kernel_entry_same]
  have hB' : specWeightedSum [(3:ℚ)/4] [(3:ℚ)/4] (fun a b => a * b)
      = 9/16 := by
    norm_num [specWeightedSum, matSum, torch_kernel_entry_same]
  have hC' : specWeightedSum [(3:ℚ)/4, 3/4] [(3:ℚ)/4]
      (fun a b => (1 - a) * b) = 3/8 := by
    norm_num [specWeightedSum, matSum, torch_kernel_entry_same]
  refine ⟨hcp, hip, ?_⟩
  rw [hmmd]
  simp only [Ne, Option.some.injEq, specMMDFormula, hA, hB, hC, hA', hB',
    hC', hmr, hnr]
  norm_num

/-! ### Claim C2: degenerate batches -/

theorem matSum_entries_map {P : ℝ → Prop} (xs ys : List ℚ) (f : ℚ → ℚ → ℝ)
    (h : ∀ a ∈ xs, ∀ b ∈ ys, P (f a b)) :
    ∀ row ∈ xs.map fun a => ys.map (f a), ∀ x ∈ row, P x := by
  intro row hrow x hx
  obtain ⟨a, ha, rfl⟩ := List.mem_map.mp hrow
  obtain ⟨b, hb, rfl⟩ := List.mem_map.mp hx
  exact h a ha b hb

theorem weightedKernelMean_const (xs ys : List ℚ) (w : ℚ → ℚ → ℚ) (c : ℝ)
    (hx : xs.length ≠ 0) (hy : ys.length ≠ 0)
    (h : ∀ a ∈ xs, ∀ b ∈ ys,
      torch_kernel_entry (a, b) * ((w a b : ℚ) : ℝ) = c) :
    weightedKernelMean xs ys w = c := by
  unfold weightedKernelMean
  rw [matSum_eq_const _ c (matSum_entries_map xs ys _ h), matNumel_map_map]
  exact mul_div_cancel_left₀ c
    (Nat.cast_ne_zero.mpr (Nat.mul_ne_zero hx hy))

theorem weightedKernelMean_nonneg (xs ys : List ℚ) (w : ℚ → ℚ → ℚ)
    (h : ∀ a ∈ xs, ∀ b ∈ ys,
      0 ≤ torch_kernel_entry (a, b) * ((w a b : ℚ) : ℝ)) :
    0 ≤ weightedKernelMean xs ys w :=
  div_nonneg (matSum_nonneg _ (matSum_entries_map xs ys _ h))
    (Nat.cast_nonneg _)

theorem weightedKernelMean_le (xs ys : List ℚ) (w : ℚ → ℚ → ℚ) (c : ℝ)
    (hx : xs.length ≠ 0) (hy : ys.length ≠ 0)
    (h : ∀ a ∈ xs, ∀ b ∈ ys,
      torch_kernel_entry (a, b) * ((w a b : ℚ) : ℝ) ≤ c) :
    weightedKernelMean xs ys w ≤ c := by
  unfold weightedKernelMean
  have hnum := matSum_le _ c (matSum_entries_map xs ys _ h)
  rw [matNumel_map_map] at hnum
  have hpos : (0:ℝ) < ((xs.length * ys.length : ℕ) : ℝ) := by
    exact_mod_cast Nat.pos_of_ne_zero (Nat.mul_ne_zero hx hy)
  rw [div_le_iff₀ hpos]
  linarith [hnum]

/-- The correct x correct statistic over a 2-element selection is a
2-point kernel quadratic form, hence non-negative. -/
theorem weightedKernelMean_cc_two_nonneg (a b : ℚ) :
    0 ≤ weightedKernelMean [a, b] [a, b] (fun x y => (1 - x) * (1 - y)) := by
  unfold weightedKernelMean matSum
  apply div_nonneg _ (Nat.cast_nonneg _)
  simp only [List.map_cons, List.map_nil, List.sum_cons, List.sum_nil]
  have hpos := torch_kernel_entry_pos (a, b)
  have hone := torch_kernel_entry_le_one (a, b)
  have hsymm := torch_kernel_entry_symm b a
  have hq := quad_form_nonneg (1 - (a:ℝ)) (1 - (b:ℝ)) (torch_kernel_entry (a, b))
    hpos.le hone
  rw [torch_kernel_entry_same a, torch_kernel_entry_same b, hsymm]
  push_cast
  nlinarith [hq]

theorem topk_take_mem (v : List ℚ) (k : ℕ) :
    ∀ x ∈ (List.insertionSort (fun a b => b ≤ a) v).take k, x ∈ v := fun _ hx =>
  (List.perm_insertionSort _ v).mem_iff.mp (List.take_subset _ _ hx)

theorem topk_take_length (v : List ℚ) (k : ℕ) :
    ((List.insertionSort (fun a b => b ≤ a) v).take k).length = min k v.length := by
  rw [List.length_take, (List.perm_insertionSort _ v).length_eq]

/-- Common tail of the degenerate analysis: a defined, non-negative MMD
estimate together with a vanishing indicator forces the returned loss to
be exactly 0. -/
theorem mmce_zero_of (input target : List ℚ) (E : ℝ)
    (he : mmd_error input target = some E) (hE0 : 0 ≤ E)
    (hcond : cond_k input target * cond_k_p input target = 0) :
    mmceForward input target = some 0 := by
  unfold mmceForward
  rw [he, Option.some_bind,
    if_neg (not_lt.mpr (add_nonneg hE0 (by norm_num : (0:ℝ) ≤ (1e-10 : ℝ))))]
  rw [hcond]
  simp

/-- Degenerate case with an empty correct set (every sample misclassified):
for a batch of at least 3 elements the returned loss is exactly 0. -/
theorem mmce_all_incorrect_zero (input target : List ℚ)
    (hlen : input.length = target.length) (h3 : 3 ≤ input.length)
    (h0 : ∀ c ∈ correct_mask input target, c = 0) :
    mmceForward input target = some 0 := by
  have hmaskLen : (correct_mask input target).length = input.length :=
    correct_mask_length input target hlen
  have hprobsLen : (predicted_probs input).length = input.length := by
    simp [predicted_probs]
  have hsum : (correct_mask input target).sum = 0 := List.sum_eq_zero h0
  have hmsum : mSum input target = 0 := hsum
  have hkRaw : kRaw input target = 0 := by rw [kRaw, hsum, Int.floor_zero]
  have hnsum : nSum input target = (input.length : ℚ) := by
    rw [nSum, one_sub_mask_sum, hsum, hmaskLen, sub_zero]
  have hkpRaw : kpRaw input target = (input.length : ℤ) := by
    rw [kpRaw, one_sub_mask_sum, hsum, hmaskLen, sub_zero, Int.floor_natCast]
  have hkpNe : kpRaw input target ≠ 0 := by rw [hkpRaw]; omega
  have hck : cond_k input target = 0 := by rw [cond_k, if_pos hkRaw]
  have hckp : cond_k_p input target = 1 := by rw [cond_k_p, if_neg hkpNe]
  have hcond : cond_k input target * cond_k_p input target = 0 := by
    rw [hck, zero_mul]
  have hkSel : kSel input target = 2 := by rw [kSel, hck, hckp]; ring
  have hkpSel : kpSel input target = (input.length : ℤ) - 2 := by
    rw [kpSel, hck, hckp, hkpRaw, hmaskLen]; ring
  have hcmLen : (List.zipWith (fun p c => p * c) (predicted_probs input)
      (correct_mask input target)).length = input.length := by
    rw [length_zipWith_same, hprobsLen, hmaskLen, min_self]
  have himLen : (List.zipWith (fun p c => p * (1 - c)) (predicted_probs input)
      (correct_mask input target)).length = input.length := by
    rw [length_zipWith_same, hprobsLen, hmaskLen, min_self]
  have hcm0 : ∀ x ∈ List.zipWith (fun p c => p * c) (predicted_probs input)
      (correct_mask input target), x = 0 := by
    intro x hx
    obtain ⟨p, _, c, hc, rfl⟩ := mem_zipWith_ex hx
    rw [h0 c hc, mul_zero]
  have him_half : ∀ x ∈ List.zipWith (fun p c => p * (1 - c))
      (predicted_probs input) (correct_mask input target), 1/2 ≤ x := by
    intro x hx
    obtain ⟨p, hp, c, hc, rfl⟩ := mem_zipWith_ex hx
    rw [h0 c hc, sub_zero, mul_one]
    exact predicted_probs_mem input p hp
  have hcp : correct_prob input target =
      some ((List.insertionSort (fun a b => b ≤ a)
        (List.zipWith (fun p c => p * c) (predicted_probs input)
          (correct_mask input target))).take 2) := by
    unfold correct_prob
    rw [hkSel, topkVals_eq_some _ 2 (by norm_num) (by rw [hcmLen]; omega)]
    rfl
  have htn : ((input.length : ℤ) - 2).toNat = input.length - 2 := by omega
  have hip : incorrect_prob input target =
      some ((List.insertionSort (fun a b => b ≤ a)
        (List.zipWith (fun p c => p * (1 - c)) (predicted_probs input)
          (correct_mask input target))).take (input.length - 2)) := by
    unfold incorrect_prob
    rw [hkpSel, topkVals_eq_some _ _ (by omega) (by rw [himLen]; omega), htn]
  set cpA := (List.insertionSort (fun a b => b ≤ a)
    (List.zipWith (fun p c => p * c) (predicted_probs input)
      (correct_mask input target))).take 2 with hcpA_def
  set ipA := (List.insertionSort (fun a b => b ≤ a)
    (List.zipWith (fun p c => p * (1 - c)) (predicted_probs input)
      (correct_mask input target))).take (input.length - 2) with hipA_def
  have hcpA_mem : ∀ x ∈ cpA, x = 0 := fun x hx =>
    hcm0 x (topk_take_mem _ 2 x hx)
  have hcpA_len : cpA.length = 2 := by
    rw [hcpA_def, topk_take_length, hcmLen]; omega
  have hipA_mem : ∀ x ∈ ipA, 1/2 ≤ x := fun x hx =>
    him_half x (topk_take_mem _ _ x hx)
  have hipA_len : ipA.length = input.length - 2 := by
    rw [hipA_def, topk_take_length, himLen]; omega
  have hcpA_ne : cpA.length ≠ 0 := by omega
  have hipA_ne : ipA.length ≠ 0 := by omega
  have hcpA_nil : cpA ≠ [] := fun h => hcpA_ne (by rw [h]; rfl)
  have hipA_nil : ipA ≠ [] := fun h => hipA_ne (by rw [h]; rfl)
  have hccVal : weightedKernelMean cpA cpA (fun a b => (1 - a) * (1 - b)) = 1 := by
    apply weightedKernelMean_const _ _ _ _ hcpA_ne hcpA_ne
    intro a ha b hb
    rw [hcpA_mem a ha, hcpA_mem b hb, torch_kernel_entry_same]
    norm_num
  have hiiVal : 0 ≤ weightedKernelMean ipA ipA (fun a b => a * b) := by
    apply weightedKernelMean_nonneg
    intro a ha b hb
    have ha2 := hipA_mem a ha
    have hb2 := hipA_mem b hb
    apply mul_nonneg (torch_kernel_entry_pos _).le
    exact_mod_cast mul_nonneg (by linarith : (0:ℚ) ≤ a) (by linarith : (0:ℚ) ≤ b)
  have hciVal_0 : 0 ≤ weightedKernelMean cpA ipA (fun a b => (1 - a) * b) := by
    apply weightedKernelMean_nonneg
    intro a ha b hb
    have hb2 := hipA_mem b hb
    rw [hcpA_mem a ha]
    apply mul_nonneg (torch_kernel_entry_pos _).le
    exact_mod_cast (by nlinarith [hb2] : (0:ℚ) ≤ (1 - 0) * b)
  have hciVal_le : weightedKernelMean cpA ipA (fun a b => (1 - a) * b) ≤ 1/2 := by
    apply weightedKernelMean_le _ _ _ _ hcpA_ne hipA_ne
    intro a ha b hb
    have hb2 := hipA_mem b hb
    rw [hcpA_mem a ha]
    have hw : (((1 - 0) * b : ℚ) : ℝ) = ((b : ℚ) : ℝ) := by push_cast; ring
    rw [hw]
    exact kernel_zero_weight_le_half b (by linarith)
  have hmmd : mmd_error input target =
      some (1 / ((mSum input target : ℝ) * (mSum input target : ℝ) + (1e-5:ℝ))
          * weightedKernelMean cpA cpA (fun a b => (1 - a) * (1 - b))
        + 1 / ((nSum input target : ℝ) * (nSum input target : ℝ) + (1e-5:ℝ))
          * weightedKernelMean ipA ipA (fun a b => a * b)
        - 2 / ((mSum input target : ℝ) * (nSum input target : ℝ) + (1e-5:ℝ))
          * weightedKernelMean cpA ipA (fun a b => (1 - a) * b)) := by
    unfold mmd_error
    simp only [hcp, hip, Option.some_bind, cc_some cpA ipA hcpA_nil,
      ii_some cpA ipA hipA_nil, ci_some cpA ipA hcpA_nil hipA_nil]
  have hmcast : (mSum input target : ℝ) = 0 := by rw [hmsum]; norm_num
  have hE0 : 0 ≤ 1 / ((mSum input target : ℝ) * (mSum input target : ℝ) + (1e-5:ℝ))
          * weightedKernelMean cpA cpA (fun a b => (1 - a) * (1 - b))
        + 1 / ((nSum input target : ℝ) * (nSum input target : ℝ) + (1e-5:ℝ))
          * weightedKernelMean ipA ipA (fun a b => a * b)
        - 2 / ((mSum input target : ℝ) * (nSum input target : ℝ) + (1e-5:ℝ))
          * weightedKernelMean cpA ipA (fun a b => (1 - a) * b) := by
    rw [hmcast, hccVal]
    have hterm2 : 0 ≤ 1 / ((nSum input target : ℝ) * (nSum input target : ℝ)
        + (1e-5:ℝ)) * weightedKernelMean ipA ipA (fun a b => a * b) := by
      apply mul_nonneg _ hiiVal
      apply div_nonneg zero_le_one
      have h9 := mul_self_nonneg (nSum input target : ℝ)
      have h10 : (0:ℝ) ≤ (1e-5:ℝ) := by norm_num
      linarith
    have h5 : (0:ℝ) * (0:ℝ) + (1e-5:ℝ) = (1e-5:ℝ) := by ring
    have h6 : (0:ℝ) * (nSum input target : ℝ) + (1e-5:ℝ) = (1e-5:ℝ) := by ring
    rw [h5, h6]
    have h7 : (1:ℝ) / (1e-5:ℝ) = 100000 := by norm_num
    have h8 : (2:ℝ) / (1e-5:ℝ) = 200000 := by norm_num
    rw [h7, h8]
    nlinarith [hciVal_le, hciVal_0, hterm2]
  exact mmce_zero_of input target _ hmmd hE0 hcond

/-- Degenerate case with an empty incorrect set (every sample classified
correctly): for a batch of at least 3 elements the returned loss is
exactly 0. -/
theorem mmce_all_correct_zero (input target : List ℚ)
    (hlen : input.length = target.length) (h3 : 3 ≤ input.length)
    (h1 : ∀ c ∈ correct_mask input target, c = 1) :
    mmceForward input target = some 0 := by
  have hmaskLen : (correct_mask input target).length = input.length :=
    correct_mask_length input target hlen
  have hprobsLen : (predicted_probs input).length = input.length := by
    simp [predicted_probs]
  have hsum : (correct_mask input target).sum = (input.length : ℚ) := by
    rw [sum_eq_length_of_one _ h1, hmaskLen]
  have hmsum : mSum input target = (input.length : ℚ) := hsum
  have hkRaw : kRaw input target = (input.length : ℤ) := by
    rw [kRaw, hsum, Int.floor_natCast]
  have hkNe : kRaw input target ≠ 0 := by rw [hkRaw]; omega
  have hnsum : nSum input target = 0 := by
    rw [nSum, one_sub_mask_sum, hsum, hmaskLen, sub_self]
  have hkpRaw : kpRaw input target = 0 := by
    rw [kpRaw, one_sub_mask_sum, hsum, hmaskLen, sub_self, Int.floor_zero]
  have hck : cond_k input target = 1 := by rw [cond_k, if_neg hkNe]
  have hckp : cond_k_p input target = 0 := by rw [cond_k_p, if_pos hkpRaw]
  have hcond : cond_k input target * cond_k_p input target = 0 := by
    rw [hckp, mul_zero]
  have hkSel : kSel input target = 2 := by rw [kSel, hck, hckp]; ring
  have hkpSel : kpSel input target = (input.length : ℤ) - 2 := by
    rw [kpSel, hck, hckp, hmaskLen]; ring
  have hcmLen : (List.zipWith (fun p c => p * c) (predicted_probs input)
      (correct_mask input target)).length = input.length := by
    rw [length_zipWith_same, hprobsLen, hmaskLen, min_self]
  have himLen : (List.zipWith (fun p c => p * (1 - c)) (predicted_probs input)
      (correct_mask input target)).length = input.length := by
    rw [length_zipWith_same, hprobsLen, hmaskLen, min_self]
  have him0 : ∀ x ∈ List.zipWith (fun p c => p * (1 - c))
      (predicted_probs input) (correct_mask input target), x = 0 := by
    intro x hx
    obtain ⟨p, _, c, hc, rfl⟩ := mem_zipWith_ex hx
    rw [h1 c hc, sub_self, mul_zero]
  have hcp : correct_prob input target =
      some ((List.insertionSort (fun a b => b ≤ a)
        (List.zipWith (fun p c => p * c) (predicted_probs input)
          (correct_mask input target))).take 2) := by
    unfold correct_prob
    rw [hkSel, topkVals_eq_some _ 2 (by norm_num) (by rw [hcmLen]; omega)]
    rfl
  have htn : ((input.length : ℤ) - 2).toNat = input.length - 2 := by omega
  have hip : incorrect_prob input target =
      some ((List.insertionSort (fun a b => b ≤ a)
        (List.zipWith (fun p c => p * (1 - c)) (predicted_probs input)
          (correct_mask input target))).take (input.length - 2)) := by
    unfold incorrect_prob
    rw [hkpSel, topkVals_eq_some _ _ (by omega) (by rw [himLen]; omega), htn]
  set cpB := (List.insertionSort (fun a b => b ≤ a)
    (List.zipWith (fun p c => p * c) (predicted_probs input)
      (correct_mask input target))).take 2 with hcpB_def
  set ipB := (List.insertionSort (fun a b => b ≤ a)
    (List.zipWith (fun p c => p * (1 - c)) (predicted_probs input)
      (correct_mask input target))).take (input.length - 2) with hipB_def
  have hcpB_len : cpB.length = 2 := by
    rw [hcpB_def, topk_take_length, hcmLen]; omega
  have hipB_mem : ∀ x ∈ ipB, x = 0 := fun x hx =>
    him0 x (topk_take_mem _ _ x hx)
  have hipB_len : ipB.length = input.length - 2 := by
    rw [hipB_def, topk_take_length, himLen]; omega
  have hcpB_ne : cpB.length ≠ 0 := by omega
  have hipB_ne : ipB.length ≠ 0 := by omega
  have hcpB_nil : cpB ≠ [] := fun h => hcpB_ne (by rw [h]; rfl)
  have hipB_nil : ipB ≠ [] := fun h => hipB_ne (by rw [h]; rfl)
  have hccVal : 0 ≤ weightedKernelMean cpB cpB (fun a b => (1 - a) * (1 - b)) := by
    obtain ⟨a, b, hab⟩ := List.length_eq_two.mp hcpB_len
    rw [hab]
    exact weightedKernelMean_cc_two_nonneg a b
  have hiiVal : weightedKernelMean ipB ipB (fun a b => a * b) = 0 := by
    apply weightedKernelMean_const _ _ _ _ hipB_ne hipB_ne
    intro a ha b hb
    rw [hipB_mem a ha, hipB_mem b hb]
    norm_num
  have hciVal : weightedKernelMean cpB ipB (fun a b => (1 - a) * b) = 0 := by
    apply weightedKernelMean_const _ _ _ _ hcpB_ne hipB_ne
    intro a ha b hb
    rw [hipB_mem b hb]
    norm_num
  have hmmd : mmd_error input target =
      some (1 / ((mSum input target : ℝ) * (mSum input target : ℝ) + (1e-5:ℝ))
          * weightedKernelMean cpB cpB (fun a b => (1 - a) * (1 - b))
        + 1 / ((nSum input target : ℝ) * (nSum input target : ℝ) + (1e-5:ℝ))
          * weightedKernelMean ipB ipB (fun a b => a * b)
        - 2 / ((mSum input target : ℝ) * (nSum input target : ℝ) + (1e-5:ℝ))
          * weightedKernelMean cpB ipB (fun a b => (1 - a) * b)) := by
    unfold mmd_error
    simp only [hcp, hip, Option.some_bind, cc_some cpB ipB hcpB_nil,
      ii_some cpB ipB hipB_nil, ci_some cpB ipB hcpB_nil hipB_nil]
  have hE0 : 0 ≤ 1 / ((mSum input target : ℝ) * (mSum input target : ℝ) + (1e-5:ℝ))
          * weightedKernelMean cpB cpB (fun a b => (1 - a) * (1 - b))
        + 1 / ((nSum input target : ℝ) * (nSum input target : ℝ) + (1e-5:ℝ))
          * weightedKernelMean ipB ipB (fun a b => a * b)
        - 2 / ((mSum input target : ℝ) * (nSum input target : ℝ) + (1e-5:ℝ))
          * weightedKernelMean cpB ipB (fun a b => (1 - a) * b) := by
    rw [hiiVal, hciVal, mul_zero, mul_zero]
    have hterm1 : 0 ≤ 1 / ((mSum input target : ℝ) * (mSum input target : ℝ)
        + (1e-5:ℝ)) * weightedKernelMean cpB cpB (fun a b => (1 - a) * (1 - b)) := by
      apply mul_nonneg _ hccVal
      apply div_nonneg zero_le_one
      have h9 := mul_self_nonneg (mSum input target : ℝ)
      have h10 : (0:ℝ) ≤ (1e-5:ℝ) := by norm_num
      linarith
    linarith
  exact mmce_zero_of input target _ hmmd hE0 hcond

/-- C2 (amended): for every batch with equal prediction/target lengths and
at least 3 flattened elements whose samples are all classified correctly
or all classified incorrectly (empty incorrect set, resp. empty correct
set), `MMCE_weighted.forward` returns exactly 0 (a genuine number, not NaN
or Inf).  For flattened sizes up to 2 this fails: the degenerate top-k
selection is empty and the result is NaN. -/
theorem C2_degenerate_returns_zero (input target : List ℚ)
    (hlen : input.length = target.length) (h3 : 3 ≤ input.length)
    (hdeg : (∀ c ∈ correct_mask input target, c = 1) ∨
            (∀ c ∈ correct_mask input target, c = 0)) :
    mmceForward input target = some 0 := by
  rcases hdeg with h | h
  · exact mmce_all_correct_zero input target hlen h3 h
  · exact mmce_all_incorrect_zero input target hlen h3 h

/-- Witness for C2 at the all-correct batch `[1, 1, 1]` vs `[1, 1, 1]`. -/
theorem C2_degenerate_returns_zero_witness :
    (([(1:ℚ), 1, 1] : List ℚ).length = ([(1:ℚ), 1, 1] : List ℚ).length ∧
     3 ≤ ([(1:ℚ), 1, 1] : List ℚ).length ∧
     (∀ c ∈ correct_mask [(1:ℚ), 1, 1] [(1:ℚ), 1, 1], c = 1)) ∧
    mmceForward [(1:ℚ), 1, 1] [(1:ℚ), 1, 1] = some 0 := by
  have hmask : ∀ c ∈ correct_mask [(1:ℚ), 1, 1] [(1:ℚ), 1, 1], c = 1 := by
    norm_num [correct_mask, predicted_labels]
  exact ⟨⟨rfl, by norm_num, hmask⟩,
    C2_degenerate_returns_zero [(1:ℚ), 1, 1] [(1:ℚ), 1, 1] rfl (by norm_num)
      (Or.inl hmask)⟩

/-- Counterexample to C2 as stated: the all-correct batch `[1, 1]` vs
`[1, 1]` has an empty incorrect set, the degenerate incorrect top-k size
is `total - 2 = 0`, so the incorrect x incorrect weighted kernel matrix is
empty and `torch.mean` of it is NaN; `forward` propagates the NaN
(modelled `none`) instead of returning 0.0. -/
theorem C2_counterexample : mmceForward [(1:ℚ), 1] [(1:ℚ), 1] = none := by
  have hcp : correct_prob [(1:ℚ), 1] [(1:ℚ), 1] = some [1, 1] := by
    norm_num [correct_prob, topkVals, kSel, cond_k, cond_k_p, kRaw, kpRaw,
      correct_mask, predicted_labels, predicted_probs, List.insertionSort,
      List.orderedInsert, Int.toNat, List.take_succ_cons, List.take_zero]
  have hip : incorrect_prob [(1:ℚ), 1] [(1:ℚ), 1] = some [] := by
    norm_num [incorrect_prob, topkVals, kpSel, cond_k, cond_k_p, kRaw, kpRaw,
      correct_mask, predicted_labels, predicted_probs, List.insertionSort,
      List.orderedInsert, Int.toNat, List.take_succ_cons, List.take_zero]
  have hii : get_out_tensor (kernelMat (get_pairs [(1:ℚ), 1] []).2.1)
      (outerMat [] []) = none := by
    rw [get_out_tensor_of_collapse (iiMat_collapse [(1:ℚ), 1] [])]
    simp [matNumel]
  unfold mmceForward mmd_error
  rw [hcp, Option.some_bind, hip, Option.some_bind,
    cc_some [(1:ℚ), 1] [] (by simp), Option.some_bind, hii, Option.none_bind,
    Option.none_bind]

/-! ### Concrete fixtures for the orchestrator claims -/

/-- A concrete instantiation of the collaborators, used to evaluate the
dispatch at explicit inputs. -/
def exCollab : Collab where
  bce := fun o t => o.sum - t.sum
  instanceLoss := fun f t => f.sum * t.sum
  mdca := fun _ _ => 3
  focal := fun _ _ => 4
  flsd := fun _ _ => 5
  dca := fun _ _ => 6
  mbls := fun _ _ => 7
  dwbl := fun _ _ => 8
  mmce := fun _ _ => 9
  smoothTradition := fun l => l
  smoothDynamic := fun l bank f _ _ => bank ++ l ++ f
  updateFeature := fun pf sf _ _ => pf ++ sf

def exBatch : BatchData where
  outputs := [2]
  semanticFeature := [3]
  target := [-1, 1]
  fullLabel := [1]
  auxFeature := [4]

def exModel : ModelState where
  prototype := [5]
  posFeature := [6]

def exAux : ModelState where
  prototype := [7]
  posFeature := [8]

def bogusCfg : TrainCfg where
  method := "bogus"
  interDistanceWeight := 2
  interExampleNums := 1
  generateLabelEpoch := 0
  computePrototypeEpoch := 1
  useRecomputePrototype := false

def dpcarCfg : TrainCfg where
  method := "DPCAR"
  interDistanceWeight := 2
  interExampleNums := 1
  generateLabelEpoch := 0
  computePrototypeEpoch := 1
  useRecomputePrototype := true

def upperProtoCfg : TrainCfg where
  method := "PROTOTYPE"
  interDistanceWeight := 2
  interExampleNums := 1
  generateLabelEpoch := 0
  computePrototypeEpoch := 1
  useRecomputePrototype := false

/-! ### Claim C1 -/

/-- C1 (amended): an unrecognized method name does not raise a
configuration error: the training step silently falls through to the
default combination — hard binarized targets, plain BCE base loss, zero
contrastive and zero calibration terms — and leaves the model states
untouched, so the subsequent per-epoch checkpoint write happens as for
any other method. -/
theorem C1_unrecognized_defaults (C : Collab) (cfg : TrainCfg)
    (model aux : ModelState) (b : BatchData)
    (epoch batchIndex numBatches : ℕ)
    (h : cfg.method ∉ recognizedMethods) :
    trainBatch C cfg model aux b epoch batchIndex numBatches =
      some ((C.bce b.outputs (hardBinarize b.target), 0, 0), model, aux) := by
  simp only [recognizedMethods, List.mem_cons, List.not_mem_nil, or_false,
    not_or] at h
  obtain ⟨h1, h2, h3, h4, h5, h6, h7, h8, h9, h10, h11, h12, h13⟩ := h
  simp [trainBatch, smoothStage, lossStage, h1, h2, h3, h4, h5, h6, h7, h8,
    h9, h10, h11, h12, h13]

/-- Witness for C1 (amended) at the method string "bogus". -/
theorem C1_unrecognized_defaults_witness :
    ("bogus" ∉ recognizedMethods) ∧
    trainBatch exCollab bogusCfg exModel exAux exBatch 0 0 1 =
      some ((exCollab.bce exBatch.outputs (hardBinarize exBatch.target), 0, 0),
        exModel, exAux) :=
  ⟨by decide,
   C1_unrecognized_defaults exCollab bogusCfg exModel exAux exBatch 0 0 1
     (by decide)⟩

/-- Counterexample to C1 as stated: with the unrecognized method "bogus"
the orchestrator step raises nothing — the dispatch has no failure
outcome (`none` only models a Python NameError on a target name the
smoothing stage never defined, which cannot happen here) and yields the
default BCE loss triple. -/
theorem C1_counterexample :
    ("bogus" ∉ recognizedMethods) ∧
    (trainBatch exCollab bogusCfg exModel exAux exBatch 0 0 1).isSome = true := by
  constructor
  · decide
  · simp [trainBatch, smoothStage, lossStage, bogusCfg]

/-! ### Claim C8 -/

/-- C8: for the method "DPCAR" the smoothing stage produces two
independent soft-target tensors — one from the instance-level positive
feature bank (after the in-batch feature update), one from the prototype
bank — and the base classification loss is the average of two separate
BCE-with-logits losses against these two targets. -/
theorem C8_dpcar_two_targets (C : Collab) (cfg : TrainCfg)
    (model aux : ModelState) (b : BatchData)
    (epoch batchIndex numBatches : ℕ) (h : cfg.method = "DPCAR") :
    smoothStage C cfg model aux b epoch =
      (SmoothTargets.pair
        (C.smoothDynamic b.fullLabel
          (C.updateFeature model.posFeature b.semanticFeature b.target
            cfg.interExampleNums) b.semanticFeature epoch (some 10))
        (C.smoothDynamic b.fullLabel model.prototype b.semanticFeature epoch
          (some 10)),
       { model with posFeature := (C.updateFeature model.posFeature
          b.semanticFeature b.target cfg.interExampleNums) },
       aux) ∧
    (trainBatch C cfg model aux b epoch batchIndex numBatches).map
        (fun r => r.1.1) =
      some ((C.bce b.outputs (C.smoothDynamic b.fullLabel
          (C.updateFeature model.posFeature b.semanticFeature b.target
            cfg.interExampleNums) b.semanticFeature epoch (some 10))
        + C.bce b.outputs (C.smoothDynamic b.fullLabel model.prototype
            b.semanticFeature epoch (some 10))) / 2) := by
  constructor
  · simp [smoothStage, h]
  · simp [trainBatch, smoothStage, lossStage, h]

/-- Witness for C8 with the concrete collaborators at method "DPCAR". -/
theorem C8_dpcar_two_targets_witness :
    dpcarCfg.method = "DPCAR" ∧
    (trainBatch exCollab dpcarCfg exModel exAux exBatch 0 0 1).map
        (fun r => r.1.1) =
      some ((exCollab.bce exBatch.outputs (exCollab.smoothDynamic
          exBatch.fullLabel (exCollab.updateFeature exModel.posFeature
            exBatch.semanticFeature exBatch.target dpcarCfg.interExampleNums)
          exBatch.semanticFeature 0 (some 10))
        + exCollab.bce exBatch.outputs (exCollab.smoothDynamic
            exBatch.fullLabel exModel.prototype exBatch.semanticFeature 0
            (some 10))) / 2) :=
  ⟨rfl, (C8_dpcar_two_targets exCollab dpcarCfg exModel exAux exBatch 0 0 1
    rfl).2⟩

/-! ### Claim C9 -/

/-- C9: for the methods carrying the instance-contrastive term ("DPCAR",
"instance", "PROTOTYPE"), in epoch 0 that term is additionally scaled by
`batch_index / num_batches` — so it is 0 at the first batch and ramps
linearly within the first epoch — while for every epoch >= 1 it is applied
at its full configured weight. -/
theorem C9_warmup_ramp (C : Collab) (cfg : TrainCfg) (model aux : ModelState)
    (b : BatchData) (epoch batchIndex numBatches : ℕ)
    (h : cfg.method = "DPCAR" ∨ cfg.method = "instance" ∨
      cfg.method = "PROTOTYPE") :
    (trainBatch C cfg model aux b epoch batchIndex numBatches).map
        (fun r => r.1.2.1) =
      some (if 1 ≤ epoch then
          cfg.interDistanceWeight * C.instanceLoss b.semanticFeature b.target
        else cfg.interDistanceWeight * C.instanceLoss b.semanticFeature b.target
          * (batchIndex : ℚ) / (numBatches : ℚ)) ∧
    (epoch = 0 → batchIndex = 0 → 0 < numBatches →
      (trainBatch C cfg model aux b epoch batchIndex numBatches).map
        (fun r => r.1.2.1) = some 0) := by
  constructor
  · rcases h with h | h | h <;>
      simp [trainBatch, smoothStage, lossStage, warmPlus, h]
  · rintro rfl rfl _
    rcases h with h | h | h <;>
      simp [trainBatch, smoothStage, lossStage, warmPlus, h]

/-- Witness for C9 at epoch 0, batch index 3 of 10. -/
theorem C9_warmup_ramp_witness :
    (dpcarCfg.method = "DPCAR" ∨ dpcarCfg.method = "instance" ∨
      dpcarCfg.method = "PROTOTYPE") ∧
    (trainBatch exCollab dpcarCfg exModel exAux exBatch 0 3 10).map
        (fun r => r.1.2.1) =
      some (if 1 ≤ 0 then
          dpcarCfg.interDistanceWeight
            * exCollab.instanceLoss exBatch.semanticFeature exBatch.target
        else dpcarCfg.interDistanceWeight
            * exCollab.instanceLoss exBatch.semanticFeature exBatch.target
          * ((3:ℕ) : ℚ) / ((10:ℕ) : ℚ)) :=
  ⟨Or.inl rfl, (C9_warmup_ramp exCollab dpcarCfg exModel exAux exBatch 0 3 10
    (Or.inl rfl)).1⟩

/-! ### Claim C10 -/

/-- C10: the dispatch is case-sensitive for "PROTOTYPE": the prototype
phase of `main` runs at the configured epochs, but the label-smoothing
dispatch matches only the lowercase "prototype", so training falls
through to hard binarized targets (negatives mapped to 0) while the loss
still includes the instance-contrastive term. -/
theorem C10_prototype_case_sensitivity (C : Collab) (cfg : TrainCfg)
    (model aux : ModelState) (b : BatchData)
    (epoch batchIndex numBatches : ℕ) (hm : cfg.method = "PROTOTYPE")
    (hg : cfg.generateLabelEpoch ≤ epoch)
    (hmod : epoch % cfg.computePrototypeEpoch = 0)
    (hfirst : epoch = cfg.generateLabelEpoch ∨
      cfg.useRecomputePrototype = true) :
    computePrototypePhase cfg epoch = true ∧
    smoothStage C cfg model aux b epoch =
      (SmoothTargets.single (hardBinarize b.target), model, aux) ∧
    trainBatch C cfg model aux b epoch batchIndex numBatches =
      some ((C.bce b.outputs (hardBinarize b.target),
        warmPlus C cfg b epoch batchIndex numBatches, 0), model, aux) := by
  refine ⟨?_, ?_, ?_⟩
  · rw [computePrototypePhase, if_pos ⟨Or.inr hm, hg, hmod⟩]
    exact decide_eq_true hfirst
  · simp [smoothStage, hm]
  · simp [trainBatch, smoothStage, lossStage, warmPlus, hm]

/-- Witness for C10 at the uppercase method "PROTOTYPE" and epoch 0. -/
theorem C10_prototype_case_sensitivity_witness :
    (upperProtoCfg.method = "PROTOTYPE" ∧
     upperProtoCfg.generateLabelEpoch ≤ 0 ∧
     0 % upperProtoCfg.computePrototypeEpoch = 0 ∧
     (0 = upperProtoCfg.generateLabelEpoch ∨
       upperProtoCfg.useRecomputePrototype = true)) ∧
    (computePrototypePhase upperProtoCfg 0 = true ∧
     smoothStage exCollab upperProtoCfg exModel exAux exBatch 0 =
       (SmoothTargets.single (hardBinarize exBatch.target), exModel, exAux) ∧
     trainBatch exCollab upperProtoCfg exModel exAux exBatch 0 0 1 =
       some ((exCollab.bce exBatch.outputs (hardBinarize exBatch.target),
         warmPlus exCollab upperProtoCfg exBatch 0 0 1, 0), exModel, exAux)) :=
  ⟨⟨rfl, by decide, by decide, Or.inl rfl⟩,
   C10_prototype_case_sensitivity exCollab upperProtoCfg exModel exAux exBatch
     0 0 1 rfl (by decide) (by decide) (Or.inl rfl)⟩
